import Mathlib

/-!
Shallow embedding of the ProcessingCluster worker-agent core
(job ledger, admission validation, scheduler tick, execution backend)
translated from:
  src/worker-agent/node/src/jobStore.js   (JobStore, Scheduler)
  src/worker-agent/node/src/api.js        (validateJobRequest, HTTP handlers)
  src/unnamed/part_002                    (executeJob, runDockerWithTimeout)

JavaScript values arriving as parsed JSON bodies are modelled by `JsonVal`
(numbers as `Int`: every number relevant to the claims is integral).
The in-memory `Map` of the JobStore is modelled as a list of records in
insertion order: `Map.set` on an existing key keeps its position, which the
list model mirrors by updating in place; key uniqueness (`Map` semantics,
enforced by `createJob`'s `has` check) is carried as a `Nodup` invariant.
-/

/-- A parsed JSON value as seen by the Express handlers. -/
inductive JsonVal where
  | nullV
  | boolV (b : Bool)
  | numV (n : Int)
  | strV (s : String)
  | arrV (elems : List JsonVal)
  | objV (fields : List (String × JsonVal))

/-- JavaScript truthiness of a parsed JSON value (`!job` checks). -/
def jsTruthy : JsonVal → Bool
  | JsonVal.nullV => false
  | JsonVal.boolV b => b
  | JsonVal.numV n => n != 0
  | JsonVal.strV s => s != ""
  | JsonVal.arrV _ => true
  | JsonVal.objV _ => true

/-- `typeof v === "object"` for a parsed JSON value (true for null, arrays
and plain objects). -/
def typeofObject : JsonVal → Bool
  | JsonVal.nullV => true
  | JsonVal.arrV _ => true
  | JsonVal.objV _ => true
  | _ => false

/-- Property access `v.name`: `none` models `undefined` (absent field, or
access on a non-object). -/
def lookupField : JsonVal → String → Option JsonVal
  | JsonVal.objV fields, name =>
    (fields.find? (fun p => p.1 == name)).map (fun p => p.2)
  | _, _ => none

/-- `!v || typeof v !== "object"` is false: the body/runtime passes the
"structured object" checks of `validateJobRequest`. -/
def isStructured (v : JsonVal) : Bool :=
  jsTruthy v && typeofObject v

/-- `v.f` is a truthy string (`!x || typeof x !== "string"` is false). -/
def fieldIsNonEmptyString (v : JsonVal) (f : String) : Bool :=
  match lookupField v f with
  | some (JsonVal.strV s) => s != ""
  | _ => false

/-- The resolved worker configuration, as far as the core consumes it:
`maxConcurrentJobs` and the optional image allow-list
(`allowedImages = []` covers both "not an array" and "empty array",
which `api.js` treats identically: the allow-list check is skipped). -/
structure Config where
  maxConcurrentJobs : Int
  allowedImages : List String

/-- One allow-list pattern against an image reference: a trailing `:*`
matches any tag under the name, otherwise exact match
(from the `allowed.some((pattern) => ...)` closure in api.js). -/
def imageMatchesPattern (image pattern : String) : Bool :=
  if pattern.endsWith ":*" then
    image.startsWith (pattern.dropRight 2 ++ ":")
  else
    image == pattern

/-- `job.protocol_version !== 1` is false: the field is present and is the
number 1 (strict equality against the number literal `1`). -/
def isProtocolVersion1 (job : JsonVal) : Bool :=
  match lookupField job "protocol_version" with
  | some (JsonVal.numV n) => n == 1
  | _ => false

/-- `validateJobRequest(job, config)` from api.js, returning the rejection
code (`none` = valid).  The short-circuit chain is translated rule by rule
in source order. -/
def validateJobRequest (job : JsonVal) (config : Config) : Option String :=
  if !(isStructured job) then
    some "INVALID_BODY"
  else if !(isProtocolVersion1 job) then
    some "UNSUPPORTED_PROTOCOL_VERSION"
  else if !(fieldIsNonEmptyString job "job_id") then
    some "MISSING_JOB_ID"
  else
    match lookupField job "runtime" with
    | none => some "MISSING_RUNTIME"
    | some rt =>
      if !(isStructured rt) then
        some "MISSING_RUNTIME"
      else
        match lookupField rt "mode" with
        | some (JsonVal.strV "image") =>
          if !(fieldIsNonEmptyString rt "image") then
            some "MISSING_IMAGE"
          else if config.allowedImages.length > 0 then
            match lookupField rt "image" with
            | some (JsonVal.strV image) =>
              if config.allowedImages.any (imageMatchesPattern image) then
                none
              else
                some "IMAGE_NOT_ALLOWED"
            | _ => some "MISSING_IMAGE"
          else
            none
        | some (JsonVal.strV "build") => some "RUNTIME_NOT_SUPPORTED"
        | _ => some "BAD_RUNTIME_MODE"

/-- The structured error stored on a failed record (`{ code, message }`). -/
structure JobError where
  code : String
  message : String
deriving DecidableEq

/-- The value `executeJob` resolves with:
`{ exitCode, stdout, stderr, errorCode }` (part_002). -/
structure ExecResult where
  exitCode : Option Int
  stdout : String
  stderr : String
  errorCode : Option String
deriving DecidableEq

/-- A job record of the JobStore (jobStore.js).  ISO-8601 timestamp strings
are abstracted to the `Nat` instant they record. -/
structure JobRec where
  job_id : String
  state : String
  created_at : Nat
  started_at : Option Nat
  finished_at : Option Nat
  exit_code : Option Int
  stdout : String
  stderr : String
  error : Option JobError
  job : JsonVal

/-- A `partialUpdate` object as passed to `updateJob`: exactly the fields
the three call sites (scheduler start, scheduler completion, cancellation
handler) ever set.  `some x` = the field is present in the partial object
and spreads over the existing value; `none` = absent, existing value kept. -/
structure JobUpdate where
  state : Option String := none
  started_at : Option Nat := none
  finished_at : Option Nat := none
  exit_code : Option (Option Int) := none
  stdout : Option String := none
  stderr : Option String := none
  error : Option (Option JobError) := none

/-- `{ ...existing, ...partialUpdate }`: fields present in the partial
object override, the rest (including `job_id`, `created_at`, `job`, which
no caller ever puts in a partial update) are kept. -/
def applyUpdate (r : JobRec) (u : JobUpdate) : JobRec :=
  { r with
    state := u.state.getD r.state
    started_at := match u.started_at with
      | some v => some v
      | none => r.started_at
    finished_at := match u.finished_at with
      | some v => some v
      | none => r.finished_at
    exit_code := u.exit_code.getD r.exit_code
    stdout := u.stdout.getD r.stdout
    stderr := u.stderr.getD r.stderr
    error := u.error.getD r.error }

/-- The fresh record `createJob` inserts. -/
def newJobRecord (jobId : String) (now : Nat) (jobObject : JsonVal) :
    JobRec :=
  { job_id := jobId
    state := "queued"
    created_at := now
    started_at := none
    finished_at := none
    exit_code := none
    stdout := ""
    stderr := ""
    error := none
    job := jobObject }

/-- `JobStore.createJob`: throws (here `Except.error`) if the id is already
present, otherwise appends a fresh `queued` record (a `Map.set` of a new
key appends in iteration order) and returns it with the new store. -/
def createJob (store : List JobRec) (jobId : String) (now : Nat)
    (jobObject : JsonVal) : Except String (JobRec × List JobRec) :=
  if store.any (fun r => r.job_id == jobId) then
    Except.error ("Job with id " ++ jobId ++ " already exists")
  else
    let record := newJobRecord jobId now jobObject
    Except.ok (record, store ++ [record])

/-- `JobStore.getJob`: `null` becomes `none` (first — by key uniqueness,
only — record with the id). -/
def getJob : List JobRec → String → Option JobRec
  | [], _ => none
  | r :: rest, jobId =>
    if r.job_id == jobId then some r else getJob rest jobId

/-- The store after `JobStore.updateJob`: `Map.set` on an existing key
replaces the value in place, so the record's position is untouched.  All
records carrying the id are updated; the `Map` key-uniqueness invariant
(carried as `Nodup` on ids) makes this the single matching record. -/
def updateJobStore : List JobRec → String → JobUpdate → List JobRec
  | [], _, _ => []
  | r :: rest, jobId, u =>
    if r.job_id == jobId then applyUpdate r u :: updateJobStore rest jobId u
    else r :: updateJobStore rest jobId u

/-- `JobStore.updateJob`: returns the merged record (`none` when the id is
absent, in which case the store is untouched) together with the new store. -/
def updateJob (store : List JobRec) (jobId : String) (u : JobUpdate) :
    Option JobRec × List JobRec :=
  match getJob store jobId with
  | none => (none, store)
  | some r => (some (applyUpdate r u), updateJobStore store jobId u)

/-- `JobStore.getJobsByState`: all records in the given state, in store
iteration (= insertion) order. -/
def getJobsByState (store : List JobRec) (state : String) : List JobRec :=
  store.filter (fun r => r.state == state)

/-- `JobStore.getRunningJobCount`. -/
def getRunningJobCount (store : List JobRec) : Nat :=
  (getJobsByState store "running").length

/-- The selection step of `Scheduler._tick`: compute
`availableSlots = maxConcurrentJobs - runningCount`, do nothing when it is
`<= 0`, otherwise take at most that many queued records in store order. -/
def tickSelect (store : List JobRec) (maxConcurrentJobs : Int) :
    List JobRec :=
  let availableSlots : Int := maxConcurrentJobs - getRunningJobCount store
  if availableSlots ≤ 0 then []
  else (getJobsByState store "queued").take availableSlots.toNat

/-- The partial update `_startJob` applies when dispatching:
`{ state: "running", started_at: now }`. -/
def runningUpdate (now : Nat) : JobUpdate :=
  { state := some "running", started_at := some now }

/-- The marking step of one tick: each selected record is transitioned to
`running` via `updateJob` (the synchronous prefix of every `_startJob` call
runs inside the tick, before any other event can interleave). -/
def tickMark (store : List JobRec) (sel : List JobRec) (now : Nat) :
    List JobRec :=
  sel.foldl (fun st r => updateJobStore st r.job_id (runningUpdate now))
    store

/-- One `Scheduler._tick`, returning the selected records and the store
with all of them marked `running`. -/
def schedulerTick (store : List JobRec) (maxConcurrentJobs : Int)
    (now : Nat) : List JobRec × List JobRec :=
  let sel := tickSelect store maxConcurrentJobs
  (sel, tickMark store sel now)

/-- The result classification of `Scheduler._startJob`: errorCode TIMEOUT
and DOCKER_ERROR first, then a non-zero numeric exit code, otherwise
`finished` with `error = null`. -/
def classifyResult (result : ExecResult) : String × Option JobError :=
  if result.errorCode == some "TIMEOUT" then
    ("failed", some ⟨"TIMEOUT", "Job exceeded max_runtime_seconds"⟩)
  else if result.errorCode == some "DOCKER_ERROR" then
    ("failed", some ⟨"DOCKER_ERROR", "Docker failed to run the job"⟩)
  else
    match result.exitCode with
    | some c =>
      if c != 0 then
        ("failed", some ⟨"NON_ZERO_EXIT", s!"Job exited with code {c}"⟩)
      else ("finished", none)
    | none => ("finished", none)

/-- The completion update `_startJob` writes after `executeJob` resolves. -/
def finishUpdate (finishedAt : Nat) (result : ExecResult) : JobUpdate :=
  let classified := classifyResult result
  { state := some classified.1
    finished_at := some finishedAt
    exit_code := some result.exitCode
    stdout := some result.stdout
    stderr := some result.stderr
    error := some classified.2 }

/-- `Scheduler._startJob` for one job, with the execution result the
backend resolves with: mark running (abandon silently when the record is
absent), then record the classified terminal state. -/
def startJob (store : List JobRec) (jobId : String) (now finishedAt : Nat)
    (result : ExecResult) : List JobRec :=
  let marked := updateJob store jobId (runningUpdate now)
  match marked.1 with
  | none => marked.2
  | some _ => (updateJob marked.2 jobId (finishUpdate finishedAt result)).2

/-- The JSON body of a `POST /jobs` response, restricted to the fields the
claims are about. -/
structure PostResponse where
  accepted : Bool
  job_id : Option String
  state : String
  errorCode : Option String
deriving DecidableEq

/-- `job.job_id` as the string the handler passes to `createJob` (only
evaluated on bodies that passed validation, where it is a non-empty
string). -/
def jobIdOf (body : JsonVal) : String :=
  match lookupField body "job_id" with
  | some (JsonVal.strV s) => s
  | _ => ""

/-- The `POST /jobs` handler (api.js): validate, then `createJob`; a throw
from `createJob` (duplicate id) is caught and surfaced as a 409 rejection
with code `JOB_ID_ALREADY_EXISTS`, leaving the store as it was. -/
def postJobs (store : List JobRec) (config : Config) (body : JsonVal)
    (now : Nat) : PostResponse × List JobRec :=
  match validateJobRequest body config with
  | some code =>
    ({ accepted := false
       job_id := match lookupField body "job_id" with
         | some (JsonVal.strV s) => some s
         | _ => none
       state := "rejected"
       errorCode := some code }, store)
  | none =>
    let jobId := jobIdOf body
    match createJob store jobId now body with
    | Except.ok (record, store1) =>
      ({ accepted := true
         job_id := some record.job_id
         state := record.state
         errorCode := none }, store1)
    | Except.error _ =>
      ({ accepted := false
         job_id := some jobId
         state := "rejected"
         errorCode := some "JOB_ID_ALREADY_EXISTS" }, store)

/-- The JSON body of a `DELETE /jobs/:job_id` response. -/
structure DeleteResponse where
  job_id : String
  state : String
  note : Option String
deriving DecidableEq

/-- The partial update of the cancellation handler for a queued job. -/
def cancelUpdate (now : Nat) : JobUpdate :=
  { state := some "failed"
    finished_at := some now
    error := some (some ⟨"CANCELLED",
      "Job was cancelled before it started running"⟩) }

/-- The `DELETE /jobs/:job_id` handler (api.js).  In the queued branch the
handler's `updateJob` call re-finds the record `getJob` just returned (the
handler is synchronous, nothing runs in between), so the merged record it
reports is `applyUpdate record (cancelUpdate now)`. -/
def deleteJob (store : List JobRec) (jobId : String) (now : Nat) :
    DeleteResponse × List JobRec :=
  match getJob store jobId with
  | none => (⟨jobId, "not_found", none⟩, store)
  | some record =>
    if record.state == "queued" then
      let updated := applyUpdate record (cancelUpdate now)
      (⟨updated.job_id, updated.state, some "Job cancelled before start"⟩,
        updateJobStore store jobId (cancelUpdate now))
    else
      (⟨record.job_id, record.state,
        some "Cancellation for running jobs is not implemented in v1"⟩,
        store)

/-- Decimal digits folded into a number; `none` on any non-digit
character (the `NaN` outcome of JavaScript number parsing). -/
def digitsAcc : List Char → Nat → Option Nat
  | [], acc => some acc
  | c :: cs, acc =>
    if c.isDigit then digitsAcc cs (acc * 10 + (c.toNat - 48)) else none

/-- A non-empty all-digit run, else `none`. -/
def digitsToNat : List Char → Option Nat
  | [] => none
  | cs => digitsAcc cs 0

/-- JavaScript `Number(s)` on a string: empty is 0, otherwise an optionally
negated decimal integer, anything else NaN (`none`).  Number values are
integral here, and `Number()`'s whitespace trimming is elided — no caller
feeds padded strings. -/
def jsStringToNumber (s : String) : Option Int :=
  match s.data with
  | [] => some 0
  | '-' :: rest => (digitsToNat rest).map (fun n => -(n : Int))
  | cs => (digitsToNat cs).map (fun n => (n : Int))

/-- JavaScript `Number(v)` coercion on a parsed JSON value; `none` models
`NaN`.  Coercion of arrays/objects (which goes through `toString`) is not
reached by any caller in the code and is modelled as `NaN`. -/
def jsToNumber : JsonVal → Option Int
  | JsonVal.nullV => some 0
  | JsonVal.boolV b => some (if b then 1 else 0)
  | JsonVal.numV n => some n
  | JsonVal.strV s => jsStringToNumber s
  | JsonVal.arrV _ => none
  | JsonVal.objV _ => none

/-- `Number(limits.max_runtime_seconds || 10) * 1000` from `executeJob`
(part_002): the argument is `limits.max_runtime_seconds` when truthy and
`10` otherwise; `none` models a `NaN` timeout. -/
def timeoutMsOf (maxRuntime : Option JsonVal) : Option Int :=
  let v := match maxRuntime with
    | some x => if jsTruthy x then x else JsonVal.numV 10
    | none => JsonVal.numV 10
  (jsToNumber v).map (fun n => n * 1000)

/-- The guard `if (timeoutMs > 0)` around `setTimeout` in
`runDockerWithTimeout`: whether a timeout timer is armed at all
(`NaN > 0` is false, so a NaN timeout arms nothing). -/
def timerArmed (maxRuntime : Option JsonVal) : Bool :=
  match timeoutMsOf maxRuntime with
  | some ms => ms > 0
  | none => false

/-- One event delivered to the handlers `runDockerWithTimeout` registers
on the spawned child: stream data, the `exit` event, the `error` event, or
the armed timeout firing. -/
inductive DockerEvent where
  | outData (s : String)
  | errData (s : String)
  | exited (code : Option Int)
  | errored (msg : String)
  | timerFired

/-- The closure state of one `runDockerWithTimeout` invocation: the
`stdout`/`stderr` accumulators, the `finished` guard flag, whether
`clearTimeout` has run, whether `child.kill("SIGKILL")` has run, and every
value passed to `resolve` so far. -/
structure RunState where
  stdout : String
  stderr : String
  finished : Bool
  timerCleared : Bool
  killed : Bool
  results : List ExecResult
deriving DecidableEq

/-- The closure state right after the synchronous body of
`runDockerWithTimeout` (handlers registered, timer armed if requested). -/
def initRunState : RunState := ⟨"", "", false, false, false, []⟩

/-- One handler invocation of `runDockerWithTimeout`, translated from the
four callbacks.  `armed` says whether `timeoutHandle` was set (it is
non-null exactly when `timeoutMs > 0`, and the timer callback exists only
then, so `timerFired` does nothing when unarmed).  Each resolving handler
first checks the `finished` flag and returns if set. -/
def stepEvent (armed : Bool) (st : RunState) (e : DockerEvent) : RunState :=
  match e with
  | DockerEvent.outData s => { st with stdout := st.stdout ++ s }
  | DockerEvent.errData s => { st with stderr := st.stderr ++ s }
  | DockerEvent.exited code =>
    if st.finished then st
    else
      { st with
        finished := true
        timerCleared := st.timerCleared || armed
        results := st.results ++ [⟨code, st.stdout, st.stderr, none⟩] }
  | DockerEvent.errored msg =>
    if st.finished then st
    else
      { st with
        finished := true
        timerCleared := st.timerCleared || armed
        results := st.results ++ [⟨none, st.stdout,
          st.stderr ++ "\n[executor] docker spawn error: " ++ msg,
          some "DOCKER_ERROR"⟩] }
  | DockerEvent.timerFired =>
    if !armed then st
    else if st.finished then st
    else
      { st with
        finished := true
        killed := true
        results := st.results ++ [⟨none, st.stdout,
          st.stderr ++ "\n[executor] Job timed out", some "TIMEOUT"⟩] }

/-- One invocation of `runDockerWithTimeout` under a given sequence of
delivered events. -/
def runDockerEvents (armed : Bool) (events : List DockerEvent) : RunState :=
  events.foldl (stepEvent armed) initRunState

/-- Whether an event causes `resolve` when it is the first to reach an
unfinished state (a timer firing can only exist when armed). -/
def isResolverEvent (armed : Bool) : DockerEvent → Bool
  | DockerEvent.exited _ => true
  | DockerEvent.errored _ => true
  | DockerEvent.timerFired => armed
  | _ => false

/-- An event that only accumulates stream data and never resolves. -/
def isDataEvent : DockerEvent → Bool
  | DockerEvent.outData _ => true
  | DockerEvent.errData _ => true
  | _ => false

/-- One atomic interleaving unit of the worker process.  Node's event loop
runs each of these synchronous segments to completion before any other can
start:
`submit` is the whole `POST /jobs` handler; `tick` is `Scheduler._tick`
together with the synchronous prefix of every `_startJob` it calls (the
`queued → running` updates happen before the first `await`, so selection
and marking are one atomic unit); `complete` is the continuation of one
dispatched `_startJob` after its `await executeJob(...)` resolves — it can
only be delivered for a job that was dispatched and has not completed yet,
which the `inFlight` list tracks; `cancel` is the whole
`DELETE /jobs/:job_id` handler. -/
inductive SysAction where
  | submit (body : JsonVal) (now : Nat)
  | tick (now : Nat)
  | complete (jobId : String) (result : ExecResult) (finishedAt : Nat)
  | cancel (jobId : String) (now : Nat)

/-- The worker-process state relevant to the ledger: the store plus the
ids of dispatched jobs whose `_startJob` continuation has not run yet. -/
structure SysState where
  store : List JobRec
  inFlight : List String

/-- Fresh worker process: empty store, nothing dispatched. -/
def initSys : SysState := ⟨[], []⟩

/-- One atomic step of the worker.  In `complete`, dispatched ids are
pairwise distinct (each dispatch consumed a distinct queued record), so
filtering the id out equals removing its single occurrence. -/
def stepSys (config : Config) (s : SysState) (a : SysAction) : SysState :=
  match a with
  | SysAction.submit body now =>
    { s with store := (postJobs s.store config body now).2 }
  | SysAction.tick now =>
    let sel := tickSelect s.store config.maxConcurrentJobs
    { store := tickMark s.store sel now
      inFlight := s.inFlight ++ sel.map (fun r => r.job_id) }
  | SysAction.complete jobId result finishedAt =>
    if s.inFlight.contains jobId then
      { store := updateJobStore s.store jobId (finishUpdate finishedAt result)
        inFlight := s.inFlight.filter (fun i => i != jobId) }
    else s
  | SysAction.cancel jobId now =>
    { s with store := (deleteJob s.store jobId now).2 }

/-- The worker state after a sequence of atomic steps from process start. -/
def runSys (config : Config) (acts : List SysAction) : SysState :=
  acts.foldl (stepSys config) initSys

/-- One ledger mutation as the claims quantify over them: a `createJob`
call (the admission path) or an `updateJob` call (scheduler or
cancellation path). -/
inductive StoreOp where
  | createOp (jobId : String) (now : Nat) (job : JsonVal)
  | updateOp (jobId : String) (u : JobUpdate)

/-- Apply one mutation: a throwing `createJob` (duplicate id) leaves the
store untouched, as every caller catches the throw without writing. -/
def applyStoreOp (store : List JobRec) : StoreOp → List JobRec
  | StoreOp.createOp jobId now job =>
    match createJob store jobId now job with
    | Except.ok x => x.2
    | Except.error _ => store
  | StoreOp.updateOp jobId u => (updateJob store jobId u).2

/-- The ledger after a sequence of mutations from the empty store. -/
def applyStoreOps (ops : List StoreOp) : List JobRec :=
  ops.foldl applyStoreOp []

/-- The ids in the order their records were first (successfully) created,
starting from the ids in `seen`. -/
def createdIds : List StoreOp → List String → List String
  | [], _ => []
  | StoreOp.createOp jobId _ _ :: rest, seen =>
    if seen.any (fun s => s == jobId) then createdIds rest seen
    else jobId :: createdIds rest (seen ++ [jobId])
  | StoreOp.updateOp _ _ :: rest, seen => createdIds rest seen

/-- The state invariant the worker maintains: record ids are unique (the
`Map` key invariant) and every dispatched-but-uncompleted job has a
`running` record. -/
def SysInv (s : SysState) : Prop :=
  (s.store.map (fun r => r.job_id)).Nodup ∧
  ∀ jobId ∈ s.inFlight, ∃ r, getJob s.store jobId = some r ∧
    r.state = "running"

/-- C2: admission validation is a pure function of body and configuration
short-circuiting in the fixed order (INVALID_BODY first, then
UNSUPPORTED_PROTOCOL_VERSION, ...): a non-structured body is rejected with
INVALID_BODY regardless of anything else, and every structured body whose
protocol_version is not the number 1 is rejected with
UNSUPPORTED_PROTOCOL_VERSION regardless of the validity of every other
field. -/
theorem validateJobRequest_protocol_version_first (body : JsonVal)
    (config : Config) :
    (isStructured body = false →
      validateJobRequest body config = some "INVALID_BODY") ∧
    (isStructured body = true → isProtocolVersion1 body = false →
      validateJobRequest body config =
        some "UNSUPPORTED_PROTOCOL_VERSION") := by
  constructor
  · intro h
    unfold validateJobRequest
    simp [h]
  · intro h1 h2
    unfold validateJobRequest
    simp [h1, h2]

/-- C2 witness: a number body is INVALID_BODY; a fully valid body except
for protocol_version 2 is UNSUPPORTED_PROTOCOL_VERSION. -/
theorem validateJobRequest_protocol_version_first_witness :
    validateJobRequest (JsonVal.numV 7) ⟨2, []⟩ = some "INVALID_BODY" ∧
    validateJobRequest
      (JsonVal.objV [("protocol_version", JsonVal.numV 2),
        ("job_id", JsonVal.strV "job-1"),
        ("runtime", JsonVal.objV [("mode", JsonVal.strV "image"),
          ("image", JsonVal.strV "alpine:3")])]) ⟨2, []⟩ =
      some "UNSUPPORTED_PROTOCOL_VERSION" := by
  refine ⟨(validateJobRequest_protocol_version_first _ _).1 (by decide), ?_⟩
  exact (validateJobRequest_protocol_version_first _ _).2 (by decide)
    (by decide)

theorem applyUpdate_job_id (r : JobRec) (u : JobUpdate) :
    (applyUpdate r u).job_id = r.job_id := rfl

theorem updateJobStore_ids (store : List JobRec) (jobId : String)
    (u : JobUpdate) :
    (updateJobStore store jobId u).map (fun r => r.job_id) =
      store.map (fun r => r.job_id) := by
  induction store with
  | nil => rfl
  | cons r t ih =>
    by_cases h : r.job_id = jobId <;>
      simp [updateJobStore, h, applyUpdate_job_id, ih]

theorem getJob_updateJobStore (store : List JobRec) (jobId : String)
    (u : JobUpdate) :
    getJob (updateJobStore store jobId u) jobId =
      (getJob store jobId).map (fun r => applyUpdate r u) := by
  induction store with
  | nil => rfl
  | cons r t ih =>
    by_cases h : r.job_id = jobId <;>
      simp [updateJobStore, getJob, h, applyUpdate_job_id, ih]

theorem getJob_updateJobStore_ne (store : List JobRec)
    (jobId other : String) (u : JobUpdate) (h : other ≠ jobId) :
    getJob (updateJobStore store jobId u) other = getJob store other := by
  induction store with
  | nil => rfl
  | cons r t ih =>
    by_cases hr : r.job_id = jobId
    · have hj : jobId ≠ other := fun hh => h hh.symm
      simp [updateJobStore, getJob, hr, applyUpdate_job_id, hj, ih]
    · by_cases hro : r.job_id = other <;>
        simp [updateJobStore, getJob, hr, hro, h, ih]

/-- C4: the scheduler classifies an execution result with no fault code and
exit code 0 as state `finished` with `error = null`; no fault code and a
non-zero numeric exit code as `failed` with error code `NON_ZERO_EXIT`; and
a dispatched job present in the store whose sandbox resolves with exit
code 0 and no fault reaches state `finished` with `exit_code = 0` and
`error = null` in the store. -/
theorem startJob_classifies_results (store : List JobRec) (jobId : String)
    (now finishedAt : Nat) (o e : String) (c : Int) :
    classifyResult ⟨some 0, o, e, none⟩ = ("finished", none) ∧
    (c ≠ 0 → classifyResult ⟨some c, o, e, none⟩ =
      ("failed", some ⟨"NON_ZERO_EXIT", s!"Job exited with code {c}"⟩)) ∧
    (∀ r, getJob store jobId = some r →
      ∃ r', getJob (startJob store jobId now finishedAt
          ⟨some 0, o, e, none⟩) jobId = some r' ∧
        r'.state = "finished" ∧ r'.exit_code = some 0 ∧
        r'.error = none) := by
  refine ⟨rfl, ?_, ?_⟩
  · intro hc
    simp [classifyResult, hc]
  · intro r hr
    have h1 : getJob (updateJobStore store jobId (runningUpdate now)) jobId
        = some (applyUpdate r (runningUpdate now)) := by
      rw [getJob_updateJobStore, hr]; rfl
    refine ⟨applyUpdate (applyUpdate r (runningUpdate now))
      (finishUpdate finishedAt ⟨some 0, o, e, none⟩), ?_, ?_, ?_, ?_⟩
    · unfold startJob
      simp only [updateJob, hr, h1]
      rw [getJob_updateJobStore, h1]
      rfl
    · simp [applyUpdate, finishUpdate, classifyResult]
    · simp [applyUpdate, finishUpdate]
    · simp [applyUpdate, finishUpdate, classifyResult]

/-- C4 witness: exit code 3 is NON_ZERO_EXIT, and a concrete one-job store
whose job resolves with exit 0 and no fault ends finished. -/
theorem startJob_classifies_results_witness :
    classifyResult ⟨some 3, "o", "e", none⟩ =
      ("failed", some ⟨"NON_ZERO_EXIT", "Job exited with code 3"⟩) ∧
    ∃ r', getJob (startJob [newJobRecord "j1" 0 JsonVal.nullV] "j1" 1 2
        ⟨some 0, "out", "err", none⟩) "j1" = some r' ∧
      r'.state = "finished" ∧ r'.exit_code = some 0 ∧ r'.error = none := by
  constructor
  · exact (startJob_classifies_results [] "x" 0 0 "o" "e" 3).2.1
      (by decide)
  · exact (startJob_classifies_results [newJobRecord "j1" 0 JsonVal.nullV]
      "j1" 1 2 "out" "err" 0).2.2 (newJobRecord "j1" 0 JsonVal.nullV) rfl

theorem getJob_some_any (store : List JobRec) (jobId : String) (r : JobRec)
    (h : getJob store jobId = some r) :
    store.any (fun x => x.job_id == jobId) = true := by
  induction store with
  | nil => simp [getJob] at h
  | cons x t ih =>
    by_cases hx : x.job_id = jobId
    · simp [hx]
    · simp [getJob, hx] at h
      simp [hx, ih h]

/-- C6: a submission whose (valid) body carries an id already present in
the ledger is rejected with code JOB_ID_ALREADY_EXISTS and the ledger is
left unchanged: `createJob` throws before inserting, the handler catches,
the existing record keeps every field, and no record is added. -/
theorem postJobs_duplicate_rejected (store : List JobRec) (config : Config)
    (body : JsonVal) (now : Nat) (r : JobRec)
    (hvalid : validateJobRequest body config = none)
    (hr : getJob store (jobIdOf body) = some r) :
    (postJobs store config body now).1 =
      { accepted := false
        job_id := some (jobIdOf body)
        state := "rejected"
        errorCode := some "JOB_ID_ALREADY_EXISTS" } ∧
    (postJobs store config body now).2 = store ∧
    getJob (postJobs store config body now).2 (jobIdOf body) = some r := by
  have hany : store.any (fun x => x.job_id == jobIdOf body) = true :=
    getJob_some_any _ _ _ hr
  unfold postJobs
  rw [hvalid]
  simp [createJob, hany, hr]

/-- C6 witness: a concrete resubmission of job-1 with a fully valid body
against a store already holding job-1. -/
theorem postJobs_duplicate_rejected_witness :
    (postJobs [newJobRecord "job-1" 0 JsonVal.nullV] ⟨2, []⟩
        (JsonVal.objV [("protocol_version", JsonVal.numV 1),
          ("job_id", JsonVal.strV "job-1"),
          ("runtime", JsonVal.objV [("mode", JsonVal.strV "image"),
            ("image", JsonVal.strV "alpine:3")])]) 5).1 =
      { accepted := false
        job_id := some "job-1"
        state := "rejected"
        errorCode := some "JOB_ID_ALREADY_EXISTS" } ∧
    (postJobs [newJobRecord "job-1" 0 JsonVal.nullV] ⟨2, []⟩
        (JsonVal.objV [("protocol_version", JsonVal.numV 1),
          ("job_id", JsonVal.strV "job-1"),
          ("runtime", JsonVal.objV [("mode", JsonVal.strV "image"),
            ("image", JsonVal.strV "alpine:3")])]) 5).2 =
      [newJobRecord "job-1" 0 JsonVal.nullV] := by
  have h := postJobs_duplicate_rejected [newJobRecord "job-1" 0 JsonVal.nullV]
    ⟨2, []⟩
    (JsonVal.objV [("protocol_version", JsonVal.numV 1),
      ("job_id", JsonVal.strV "job-1"),
      ("runtime", JsonVal.objV [("mode", JsonVal.strV "image"),
        ("image", JsonVal.strV "alpine:3")])]) 5
    (newJobRecord "job-1" 0 JsonVal.nullV) rfl rfl
  exact ⟨h.1, h.2.1⟩

/-- C9: cancelling a queued job transitions it to `failed` with error code
CANCELLED and a finish timestamp and reports the new state; cancelling a
running job leaves the store unchanged and reports the unchanged `running`
state with the unimplemented note; cancelling an unknown id reports
not_found and changes nothing. -/
theorem deleteJob_cancellation (store : List JobRec) (jobId : String)
    (now : Nat) :
    (getJob store jobId = none →
      (deleteJob store jobId now).1 = ⟨jobId, "not_found", none⟩ ∧
      (deleteJob store jobId now).2 = store) ∧
    (∀ r, getJob store jobId = some r → r.state = "queued" →
      (deleteJob store jobId now).1.state = "failed" ∧
      (deleteJob store jobId now).1.note =
        some "Job cancelled before start" ∧
      ∃ r', getJob (deleteJob store jobId now).2 jobId = some r' ∧
        r' = applyUpdate r (cancelUpdate now) ∧
        r'.state = "failed" ∧
        r'.error = some ⟨"CANCELLED",
          "Job was cancelled before it started running"⟩ ∧
        r'.finished_at = some now) ∧
    (∀ r, getJob store jobId = some r → r.state = "running" →
      (deleteJob store jobId now).1 = ⟨r.job_id, "running",
        some "Cancellation for running jobs is not implemented in v1"⟩ ∧
      (deleteJob store jobId now).2 = store) := by
  refine ⟨?_, ?_, ?_⟩
  · intro h
    unfold deleteJob
    rw [h]
    exact ⟨rfl, rfl⟩
  · intro r hr hq
    have hd : deleteJob store jobId now =
        (⟨(applyUpdate r (cancelUpdate now)).job_id,
          (applyUpdate r (cancelUpdate now)).state,
          some "Job cancelled before start"⟩,
         updateJobStore store jobId (cancelUpdate now)) := by
      unfold deleteJob
      rw [hr]
      simp [hq]
    rw [hd]
    refine ⟨?_, rfl, applyUpdate r (cancelUpdate now), ?_, rfl, ?_, ?_⟩
    · simp [applyUpdate, cancelUpdate]
    · rw [getJob_updateJobStore, hr]; rfl
    · simp [applyUpdate, cancelUpdate]
    · simp [applyUpdate, cancelUpdate]
  · intro r hr hrun
    unfold deleteJob
    rw [hr]
    simp [hrun]

/-- C9 witness: the three branches on concrete stores (queued job q1,
running job r1, unknown id zz). -/
theorem deleteJob_cancellation_witness :
    ((deleteJob [] "zz" 9).1 = ⟨"zz", "not_found", none⟩ ∧
      (deleteJob [] "zz" 9).2 = []) ∧
    ((deleteJob [newJobRecord "q1" 0 JsonVal.nullV] "q1" 9).1.state =
        "failed" ∧
      (deleteJob [newJobRecord "q1" 0 JsonVal.nullV] "q1" 9).1.note =
        some "Job cancelled before start" ∧
      ∃ r', getJob (deleteJob [newJobRecord "q1" 0 JsonVal.nullV] "q1"
          9).2 "q1" = some r' ∧
        r' = applyUpdate (newJobRecord "q1" 0 JsonVal.nullV)
          (cancelUpdate 9) ∧
        r'.state = "failed" ∧
        r'.error = some ⟨"CANCELLED",
          "Job was cancelled before it started running"⟩ ∧
        r'.finished_at = some 9) ∧
    ((deleteJob [{ newJobRecord "r1" 0 JsonVal.nullV with
        state := "running" }] "r1" 9).1 = ⟨"r1", "running",
        some "Cancellation for running jobs is not implemented in v1"⟩ ∧
      (deleteJob [{ newJobRecord "r1" 0 JsonVal.nullV with
        state := "running" }] "r1" 9).2 =
        [{ newJobRecord "r1" 0 JsonVal.nullV with state := "running" }]) := by
  refine ⟨(deleteJob_cancellation [] "zz" 9).1 rfl, ?_, ?_⟩
  · exact (deleteJob_cancellation [newJobRecord "q1" 0 JsonVal.nullV]
      "q1" 9).2.1 (newJobRecord "q1" 0 JsonVal.nullV) rfl rfl
  · exact (deleteJob_cancellation [{ newJobRecord "r1" 0 JsonVal.nullV with
      state := "running" }] "r1" 9).2.2
      { newJobRecord "r1" 0 JsonVal.nullV with state := "running" } rfl rfl

/-- C10: a missing or falsy `max_runtime_seconds` (absent, null, 0, empty
string) falls back to `Number(... || 10)`, i.e. a 10000 ms timeout with the
timer armed — a limit of 0 does not disable the timeout — while a truthy
value that coerces to NaN (a non-numeric string) gives a NaN `timeoutMs`,
the `timeoutMs > 0` guard fails, no timer is armed, and a timer event on an
unarmed invocation leaves the closure state untouched (the process runs
unbounded). -/
theorem executeJob_timeout_default_and_nan (v : JsonVal) (s : String)
    (st : RunState) :
    (timeoutMsOf none = some 10000 ∧ timerArmed none = true) ∧
    (jsTruthy v = false →
      timeoutMsOf (some v) = some 10000 ∧ timerArmed (some v) = true) ∧
    (s ≠ "" → jsStringToNumber s = none →
      timeoutMsOf (some (JsonVal.strV s)) = none ∧
      timerArmed (some (JsonVal.strV s)) = false) ∧
    stepEvent false st DockerEvent.timerFired = st := by
  refine ⟨⟨rfl, rfl⟩, ?_, ?_, rfl⟩
  · intro hv
    constructor
    · simp [timeoutMsOf, hv, jsToNumber]
    · simp [timerArmed, timeoutMsOf, hv, jsToNumber]
  · intro hne hn
    constructor
    · simp [timeoutMsOf, jsTruthy, hne, jsToNumber, hn]
    · simp [timerArmed, timeoutMsOf, jsTruthy, hne, jsToNumber, hn]

/-- C10 witness: limit 0 keeps the 10-second default; the non-numeric
string limit "abc" arms no timer. -/
theorem executeJob_timeout_default_and_nan_witness :
    (timeoutMsOf (some (JsonVal.numV 0)) = some 10000 ∧
      timerArmed (some (JsonVal.numV 0)) = true) ∧
    (timeoutMsOf (some (JsonVal.strV "abc")) = none ∧
      timerArmed (some (JsonVal.strV "abc")) = false) := by
  constructor
  · exact (executeJob_timeout_default_and_nan (JsonVal.numV 0) ""
      initRunState).2.1 (by decide)
  · exact (executeJob_timeout_default_and_nan JsonVal.nullV "abc"
      initRunState).2.2.1 (by decide) (by decide)

theorem updateJob_ids (store : List JobRec) (jobId : String)
    (u : JobUpdate) :
    ((updateJob store jobId u).2).map (fun r => r.job_id) =
      store.map (fun r => r.job_id) := by
  unfold updateJob
  cases h : getJob store jobId with
  | none => rfl
  | some r => exact updateJobStore_ids store jobId u

theorem applyStoreOps_ids (ops : List StoreOp) (store : List JobRec) :
    (ops.foldl applyStoreOp store).map (fun r => r.job_id) =
      store.map (fun r => r.job_id) ++
        createdIds ops (store.map (fun r => r.job_id)) := by
  induction ops generalizing store with
  | nil => simp [createdIds]
  | cons op rest ih =>
    cases op with
    | createOp jobId now job =>
      by_cases h : store.any (fun r => r.job_id == jobId)
      · have hseen : (store.map (fun r => r.job_id)).any
            (fun s => s == jobId) = true := by
          simpa [List.any_map, Function.comp] using h
        simp only [List.foldl_cons, applyStoreOp, createJob, h, if_true]
        rw [ih store, createdIds]
        simp [hseen]
      · have hb : store.any (fun r => r.job_id == jobId) = false := by
          simpa using h
        have hseen : (store.map (fun r => r.job_id)).any
            (fun s => s == jobId) = false := by
          simpa [List.any_map, Function.comp] using hb
        simp only [List.foldl_cons, applyStoreOp, createJob, hb,
          Bool.false_eq_true, if_false]
        rw [ih (store ++ [newJobRecord jobId now job]), createdIds]
        simp [hseen, newJobRecord, List.append_assoc]
    | updateOp jobId u =>
      simp only [List.foldl_cons, applyStoreOp]
      rw [ih ((updateJob store jobId u).2), updateJob_ids, createdIds]

/-- C3: after any sequence of createJob/updateJob operations, the store's
id sequence is exactly the first-creation order (updateJob never changes a
record's position or the id sequence), `getJobsByState` lists matching
records as a subsequence of that creation order, and the scheduler's
selection is a prefix (`take n`) of `getJobsByState "queued"` — dispatch
is FIFO by admission order. -/
theorem getJobsByState_fifo_order (ops : List StoreOp) (s : String)
    (store : List JobRec) (jobId : String) (u : JobUpdate)
    (maxConcurrentJobs : Int) :
    (applyStoreOps ops).map (fun r => r.job_id) = createdIds ops [] ∧
    List.Sublist
      ((getJobsByState (applyStoreOps ops) s).map (fun r => r.job_id))
      (createdIds ops []) ∧
    ((updateJob store jobId u).2).map (fun r => r.job_id) =
      store.map (fun r => r.job_id) ∧
    ∃ n, tickSelect store maxConcurrentJobs =
      (getJobsByState store "queued").take n := by
  have hids : (applyStoreOps ops).map (fun r => r.job_id) =
      createdIds ops [] := by
    have := applyStoreOps_ids ops []
    simpa [applyStoreOps] using this
  refine ⟨hids, ?_, updateJob_ids store jobId u, ?_⟩
  · rw [← hids]
    exact List.Sublist.map _ (List.filter_sublist _)
  · unfold tickSelect
    by_cases h : (maxConcurrentJobs -
        (getRunningJobCount store : Int)) ≤ 0
    · exact ⟨0, by simp [h]⟩
    · exact ⟨(maxConcurrentJobs -
        (getRunningJobCount store : Int)).toNat, by simp [h]⟩

theorem stepEvent_frozen (armed : Bool) (st : RunState) (e : DockerEvent)
    (h : st.finished = true) :
    (stepEvent armed st e).finished = true ∧
    (stepEvent armed st e).results = st.results ∧
    (stepEvent armed st e).timerCleared = st.timerCleared ∧
    (stepEvent armed st e).killed = st.killed := by
  cases e <;> simp [stepEvent, h]

theorem foldl_stepEvent_frozen (armed : Bool) (events : List DockerEvent)
    (st : RunState) (h : st.finished = true) :
    (events.foldl (stepEvent armed) st).finished = true ∧
    (events.foldl (stepEvent armed) st).results = st.results ∧
    (events.foldl (stepEvent armed) st).timerCleared = st.timerCleared ∧
    (events.foldl (stepEvent armed) st).killed = st.killed := by
  induction events generalizing st with
  | nil => exact ⟨h, rfl, rfl, rfl⟩
  | cons e rest ih =>
    have hs := stepEvent_frozen armed st e h
    have := ih (stepEvent armed st e) hs.1
    exact ⟨this.1, this.2.1.trans hs.2.1, this.2.2.1.trans hs.2.2.1,
      this.2.2.2.trans hs.2.2.2⟩

theorem stepEvent_nonresolver (armed : Bool) (st : RunState)
    (e : DockerEvent) (h : isResolverEvent armed e = false) :
    (stepEvent armed st e).finished = st.finished ∧
    (stepEvent armed st e).results = st.results ∧
    (stepEvent armed st e).timerCleared = st.timerCleared ∧
    (stepEvent armed st e).killed = st.killed := by
  cases e with
  | outData s => simp [stepEvent]
  | errData s => simp [stepEvent]
  | exited c => simp [isResolverEvent] at h
  | errored m => simp [isResolverEvent] at h
  | timerFired =>
    have : armed = false := by simpa [isResolverEvent] using h
    simp [stepEvent, this]

theorem foldl_stepEvent_nonresolver (armed : Bool)
    (events : List DockerEvent) (st : RunState)
    (h : ∀ e ∈ events, isResolverEvent armed e = false) :
    (events.foldl (stepEvent armed) st).finished = st.finished ∧
    (events.foldl (stepEvent armed) st).results = st.results ∧
    (events.foldl (stepEvent armed) st).timerCleared = st.timerCleared ∧
    (events.foldl (stepEvent armed) st).killed = st.killed := by
  induction events generalizing st with
  | nil => exact ⟨rfl, rfl, rfl, rfl⟩
  | cons e rest ih =>
    have he := stepEvent_nonresolver armed st e (h e (by simp))
    have := ih (stepEvent armed st e) (fun x hx => h x (by simp [hx]))
    exact ⟨this.1.trans he.1, this.2.1.trans he.2.1,
      this.2.2.1.trans he.2.2.1, this.2.2.2.trans he.2.2.2⟩

theorem foldl_stepEvent_count (armed : Bool) (events : List DockerEvent)
    (st : RunState) (h1 : st.finished = false) (h2 : st.results = []) :
    (events.foldl (stepEvent armed) st).results.length =
      (if events.any (isResolverEvent armed) then 1 else 0) ∧
    (events.foldl (stepEvent armed) st).finished =
      events.any (isResolverEvent armed) := by
  induction events generalizing st with
  | nil => simp [h1, h2]
  | cons e rest ih =>
    by_cases he : isResolverEvent armed e = true
    · have hstep : (stepEvent armed st e).finished = true ∧
          (stepEvent armed st e).results.length = 1 := by
        cases e with
        | outData s => simp [isResolverEvent] at he
        | errData s => simp [isResolverEvent] at he
        | exited c => simp [stepEvent, h1, h2]
        | errored m => simp [stepEvent, h1, h2]
        | timerFired =>
          have ha : armed = true := by simpa [isResolverEvent] using he
          simp [stepEvent, ha, h1, h2]
      have hfro := foldl_stepEvent_frozen armed rest (stepEvent armed st e)
        hstep.1
      constructor
      · rw [List.foldl_cons, hfro.2.1]
        simp [List.any_cons, he, hstep.2]
      · rw [List.foldl_cons, hfro.1]
        simp [List.any_cons, he]
    · have he' : isResolverEvent armed e = false := by simpa using he
      have hstep := stepEvent_nonresolver armed st e he'
      have hrec := ih (stepEvent armed st e) (hstep.1.trans h1)
        (hstep.2.1.trans h2)
      constructor
      · rw [List.foldl_cons, hrec.1]
        simp [List.any_cons, he']
      · rw [List.foldl_cons, hrec.2]
        simp [List.any_cons, he']

/-- C8: each invocation of `runDockerWithTimeout` resolves at most once
under every event sequence — exactly once as soon as a resolving event
(exit, spawn error, or armed timer) occurs, the `finished` guard making
the handlers mutually exclusive with the first one winning — and when the
exit or error handler resolves first on an armed invocation, the timeout
timer has been disarmed (`clearTimeout` ran). -/
theorem runDocker_resolves_at_most_once (armed : Bool)
    (events pre rest : List DockerEvent) (code : Option Int)
    (msg : String) :
    ((runDockerEvents armed events).results.length =
      if events.any (isResolverEvent armed) then 1 else 0) ∧
    (events.any (isResolverEvent armed) = true →
      (runDockerEvents armed events).results.length = 1) ∧
    ((∀ e ∈ pre, isResolverEvent true e = false) →
      (runDockerEvents true
        (pre ++ DockerEvent.exited code :: rest)).timerCleared = true) ∧
    ((∀ e ∈ pre, isResolverEvent true e = false) →
      (runDockerEvents true
        (pre ++ DockerEvent.errored msg :: rest)).timerCleared = true) := by
  have hcount := foldl_stepEvent_count armed events initRunState rfl rfl
  refine ⟨hcount.1, ?_, ?_, ?_⟩
  · intro h
    rw [runDockerEvents, hcount.1, h]
    rfl
  · intro hpre
    have hp := foldl_stepEvent_nonresolver true pre initRunState hpre
    have hp1 : (pre.foldl (stepEvent true) initRunState).finished = false := by
      rw [hp.1]; rfl
    rw [runDockerEvents, List.foldl_append, List.foldl_cons]
    have hfin : (stepEvent true (pre.foldl (stepEvent true) initRunState)
        (DockerEvent.exited code)).finished = true := by
      simp [stepEvent, hp1]
    have hcl : (stepEvent true (pre.foldl (stepEvent true) initRunState)
        (DockerEvent.exited code)).timerCleared = true := by
      simp [stepEvent, hp1]
    have hfro := foldl_stepEvent_frozen true rest _ hfin
    rw [hfro.2.2.1]
    exact hcl
  · intro hpre
    have hp := foldl_stepEvent_nonresolver true pre initRunState hpre
    have hp1 : (pre.foldl (stepEvent true) initRunState).finished = false := by
      rw [hp.1]; rfl
    rw [runDockerEvents, List.foldl_append, List.foldl_cons]
    have hfin : (stepEvent true (pre.foldl (stepEvent true) initRunState)
        (DockerEvent.errored msg)).finished = true := by
      simp [stepEvent, hp1]
    have hcl : (stepEvent true (pre.foldl (stepEvent true) initRunState)
        (DockerEvent.errored msg)).timerCleared = true := by
      simp [stepEvent, hp1]
    have hfro := foldl_stepEvent_frozen true rest _ hfin
    rw [hfro.2.2.1]
    exact hcl

/-- C8 witness: with the timer armed, data then an exit then a spurious
timer event resolve exactly once, with the timer disarmed. -/
theorem runDocker_resolves_at_most_once_witness :
    ((runDockerEvents true [DockerEvent.outData "x",
      DockerEvent.exited (some 0), DockerEvent.timerFired]).results.length
        = 1) ∧
    (runDockerEvents true [DockerEvent.outData "x",
      DockerEvent.exited (some 0),
      DockerEvent.timerFired]).timerCleared = true := by
  constructor
  · exact (runDocker_resolves_at_most_once true
      [DockerEvent.outData "x", DockerEvent.exited (some 0),
        DockerEvent.timerFired] [] [] none "").2.1 (by decide)
  · exact (runDocker_resolves_at_most_once true []
      [DockerEvent.outData "x"] [DockerEvent.timerFired] (some 0)
      "").2.2.1 (by decide)

theorem startJob_getJob (store : List JobRec) (jobId : String)
    (now fin : Nat) (res : ExecResult) (r : JobRec)
    (hr : getJob store jobId = some r) :
    getJob (startJob store jobId now fin res) jobId =
      some (applyUpdate (applyUpdate r (runningUpdate now))
        (finishUpdate fin res)) := by
  have h1 : getJob (updateJobStore store jobId (runningUpdate now)) jobId
      = some (applyUpdate r (runningUpdate now)) := by
    rw [getJob_updateJobStore, hr]; rfl
  unfold startJob
  simp only [updateJob, hr, h1]
  rw [getJob_updateJobStore, h1]
  rfl

/-- C5: when the armed timer fires before the process exits (only stream
data precedes it), the invocation resolves exactly with fault code TIMEOUT,
the process is killed, the resolution carries all stdout/stderr captured
before termination (stderr plus the timeout marker), the scheduler
classifies it as `failed`/`TIMEOUT`, and the stored record keeps the
captured (possibly partial) output. -/
theorem runDocker_timeout_fails_job (pre rest : List DockerEvent)
    (store : List JobRec) (jobId : String) (now fin : Nat) (r : JobRec)
    (hpre : ∀ e ∈ pre, isDataEvent e = true)
    (hr : getJob store jobId = some r) :
    (runDockerEvents true (pre ++ DockerEvent.timerFired :: rest)).results
      = [⟨none, (runDockerEvents true pre).stdout,
          (runDockerEvents true pre).stderr ++ "\n[executor] Job timed out",
          some "TIMEOUT"⟩] ∧
    (runDockerEvents true
      (pre ++ DockerEvent.timerFired :: rest)).killed = true ∧
    classifyResult ⟨none, (runDockerEvents true pre).stdout,
      (runDockerEvents true pre).stderr ++ "\n[executor] Job timed out",
      some "TIMEOUT"⟩ =
      ("failed", some ⟨"TIMEOUT", "Job exceeded max_runtime_seconds"⟩) ∧
    (∃ r', getJob (startJob store jobId now fin ⟨none,
        (runDockerEvents true pre).stdout,
        (runDockerEvents true pre).stderr ++ "\n[executor] Job timed out",
        some "TIMEOUT"⟩) jobId = some r' ∧
      r'.state = "failed" ∧
      r'.error = some ⟨"TIMEOUT", "Job exceeded max_runtime_seconds"⟩ ∧
      r'.stdout = (runDockerEvents true pre).stdout ∧
      r'.exit_code = none ∧ r'.finished_at = some fin) := by
  have hpre' : ∀ e ∈ pre, isResolverEvent true e = false := by
    intro e he
    have := hpre e he
    cases e <;> simp_all [isDataEvent, isResolverEvent]
  have hp := foldl_stepEvent_nonresolver true pre initRunState hpre'
  have hp1 : (pre.foldl (stepEvent true) initRunState).finished = false := by
    rw [hp.1]; rfl
  have hp2 : (pre.foldl (stepEvent true) initRunState).results = [] := by
    rw [hp.2.1]; rfl
  have hfin : (stepEvent true (pre.foldl (stepEvent true) initRunState)
      DockerEvent.timerFired).finished = true := by
    simp [stepEvent, hp1]
  have hfro := foldl_stepEvent_frozen true rest _ hfin
  refine ⟨?_, ?_, rfl, ?_⟩
  · rw [runDockerEvents, List.foldl_append, List.foldl_cons, hfro.2.1]
    simp [stepEvent, hp1, hp2, runDockerEvents]
  · rw [runDockerEvents, List.foldl_append, List.foldl_cons, hfro.2.2.2]
    simp [stepEvent, hp1]
  · refine ⟨_, startJob_getJob store jobId now fin _ r hr, ?_, ?_, ?_, ?_,
      ?_⟩ <;>
      simp [applyUpdate, finishUpdate, classifyResult]

/-- C5 witness: one stdout chunk, then the timer fires, then a late exit
event; the job record for j1 becomes failed/TIMEOUT with the partial
output. -/
theorem runDocker_timeout_fails_job_witness :
    (runDockerEvents true [DockerEvent.outData "partial",
        DockerEvent.timerFired, DockerEvent.exited (some 0)]).results
      = [⟨none, "partial", "\n[executor] Job timed out", some "TIMEOUT"⟩] ∧
    (runDockerEvents true [DockerEvent.outData "partial",
        DockerEvent.timerFired, DockerEvent.exited (some 0)]).killed =
      true ∧
    ∃ r', getJob (startJob [newJobRecord "j1" 0 JsonVal.nullV] "j1" 1 2
        ⟨none, "partial", "\n[executor] Job timed out",
          some "TIMEOUT"⟩) "j1" = some r' ∧
      r'.state = "failed" ∧
      r'.error = some ⟨"TIMEOUT", "Job exceeded max_runtime_seconds"⟩ ∧
      r'.stdout = "partial" := by
  have h := runDocker_timeout_fails_job [DockerEvent.outData "partial"]
    [DockerEvent.exited (some 0)] [newJobRecord "j1" 0 JsonVal.nullV]
    "j1" 1 2 (newJobRecord "j1" 0 JsonVal.nullV) (by decide) rfl
  refine ⟨h.1, h.2.1, ?_⟩
  obtain ⟨r', hg, hs, he, hout, _, _⟩ := h.2.2.2
  exact ⟨r', hg, hs, he, hout⟩

theorem updateJobStore_no_match (store : List JobRec) (jobId : String)
    (u : JobUpdate) (h : ∀ x ∈ store, x.job_id ≠ jobId) :
    updateJobStore store jobId u = store := by
  induction store with
  | nil => rfl
  | cons x t ih =>
    have hx := h x (by simp)
    simp [updateJobStore, hx, ih (fun y hy => h y (by simp [hy]))]

theorem mem_updateJobStore_ne (store : List JobRec) (jobId : String)
    (u : JobUpdate) (y : JobRec) (hy : y ∈ store)
    (hne : y.job_id ≠ jobId) : y ∈ updateJobStore store jobId u := by
  induction store with
  | nil => cases hy
  | cons x t ih =>
    rcases List.mem_cons.mp hy with h1 | h1
    · subst h1
      simp [updateJobStore, hne]
    · by_cases hx : x.job_id = jobId <;>
        simp [updateJobStore, hx] <;>
        exact Or.inr (ih h1)

theorem runningCount_markRunning (store : List JobRec) (r : JobRec)
    (now : Nat) (hnd : (store.map (fun x => x.job_id)).Nodup)
    (hmem : r ∈ store) (hq : r.state = "queued") :
    getRunningJobCount (updateJobStore store r.job_id
      (runningUpdate now)) = getRunningJobCount store + 1 := by
  induction store with
  | nil => cases hmem
  | cons x t ih =>
    have hnd' : x.job_id ∉ t.map (fun x => x.job_id) ∧
        (t.map (fun x => x.job_id)).Nodup := by
      simpa [List.nodup_cons] using hnd
    rcases List.mem_cons.mp hmem with h1 | h1
    · subst h1
      have htail : updateJobStore t r.job_id (runningUpdate now) = t := by
        refine updateJobStore_no_match t r.job_id _ (fun y hy hc => ?_)
        exact hnd'.1 (hc ▸ List.mem_map_of_mem (fun x => x.job_id) hy)
      have hcons : updateJobStore (r :: t) r.job_id (runningUpdate now) =
          applyUpdate r (runningUpdate now) :: t := by
        simp [updateJobStore, htail]
      rw [hcons]
      simp [getRunningJobCount, getJobsByState, applyUpdate,
        runningUpdate, hq]
    · by_cases hx : x.job_id = r.job_id
      · exact absurd (hx ▸ List.mem_map_of_mem (fun x => x.job_id) h1)
          hnd'.1
      · have hcons : updateJobStore (x :: t) r.job_id
            (runningUpdate now) =
            x :: updateJobStore t r.job_id (runningUpdate now) := by
          simp [updateJobStore, hx]
        have hrec : (List.filter (fun y => y.state == "running")
            (updateJobStore t r.job_id (runningUpdate now))).length =
            (List.filter (fun y => y.state == "running") t).length + 1 := by
          simpa [getRunningJobCount, getJobsByState] using ih hnd'.2 h1
        rw [hcons]
        by_cases hrx : x.state = "running" <;>
          simp [getRunningJobCount, getJobsByState, hrx, hrec]

theorem runningCount_tickMark (sel : List JobRec) (store : List JobRec)
    (now : Nat) (hnd : (store.map (fun x => x.job_id)).Nodup)
    (hselnd : (sel.map (fun x => x.job_id)).Nodup)
    (hsel : ∀ r ∈ sel, r ∈ store ∧ r.state = "queued") :
    getRunningJobCount (tickMark store sel now) =
      getRunningJobCount store + sel.length := by
  induction sel generalizing store with
  | nil => simp [tickMark]
  | cons s ss ih =>
    have hs := hsel s (by simp)
    have hselnd' : s.job_id ∉ ss.map (fun x => x.job_id) ∧
        (ss.map (fun x => x.job_id)).Nodup := by
      simpa [List.nodup_cons] using hselnd
    have hcount := runningCount_markRunning store s now hnd hs.1 hs.2
    have hnd1 : ((updateJobStore store s.job_id
        (runningUpdate now)).map (fun x => x.job_id)).Nodup := by
      rw [updateJobStore_ids]
      exact hnd
    have hsel' : ∀ r ∈ ss, r ∈ updateJobStore store s.job_id
        (runningUpdate now) ∧ r.state = "queued" := by
      intro r hrss
      have hmem := (hsel r (by simp [hrss])).1
      have hq := (hsel r (by simp [hrss])).2
      have hne : r.job_id ≠ s.job_id := by
        intro heq
        exact hselnd'.1 (heq ▸ List.mem_map_of_mem (fun x => x.job_id)
          hrss)
      exact ⟨mem_updateJobStore_ne store s.job_id _ r hmem hne, hq⟩
    have hrec := ih (updateJobStore store s.job_id (runningUpdate now))
      hnd1 hselnd'.2 hsel'
    unfold tickMark at hrec ⊢
    rw [List.foldl_cons, hrec, hcount]
    simp only [List.length_cons]
    omega

theorem tickSelect_spec (store : List JobRec) (maxC : Int)
    (hnd : (store.map (fun x => x.job_id)).Nodup) :
    ((tickSelect store maxC).map (fun x => x.job_id)).Nodup ∧
    (∀ r ∈ tickSelect store maxC, r ∈ store ∧ r.state = "queued") ∧
    (tickSelect store maxC).length ≤
      (maxC - (getRunningJobCount store : Int)).toNat := by
  have hsub : (tickSelect store maxC).Sublist store := by
    unfold tickSelect
    by_cases h : maxC - (getRunningJobCount store : Int) ≤ 0
    · simp [h]
    · simp only [h, if_false]
      exact (List.take_sublist _ _).trans
        (by simp only [getJobsByState]; exact List.filter_sublist store)
  refine ⟨(hnd.sublist (hsub.map (fun x => x.job_id))), ?_, ?_⟩
  · intro r hr
    refine ⟨hsub.mem hr, ?_⟩
    unfold tickSelect at hr
    by_cases h : maxC - (getRunningJobCount store : Int) ≤ 0
    · simp [h] at hr
    · simp only [h, if_false] at hr
      have := List.mem_of_mem_take hr
      simp only [getJobsByState, List.mem_filter] at this
      simpa using this.2
  · unfold tickSelect
    by_cases h : maxC - (getRunningJobCount store : Int) ≤ 0
    · simp [h]
    · simp only [h, if_false]
      exact (List.length_take_le _ _)

/-- C1: a scheduler tick dispatches at most
`maxConcurrentJobs - runningCount` queued jobs and none when that
difference is ≤ 0; marking the selected jobs running raises the running
count by exactly the number dispatched, so whenever the running count is
within the ceiling at the start of a tick it is still within the ceiling
at the tick boundary after dispatch. -/
theorem schedulerTick_concurrency_cap (store : List JobRec)
    (maxConcurrentJobs : Int) (now : Nat)
    (hnd : (store.map (fun x => x.job_id)).Nodup) :
    (maxConcurrentJobs - (getRunningJobCount store : Int) ≤ 0 →
      tickSelect store maxConcurrentJobs = []) ∧
    ((tickSelect store maxConcurrentJobs).length : Int) ≤
      max (maxConcurrentJobs - (getRunningJobCount store : Int)) 0 ∧
    getRunningJobCount (schedulerTick store maxConcurrentJobs now).2 =
      getRunningJobCount store +
        (tickSelect store maxConcurrentJobs).length ∧
    ((getRunningJobCount store : Int) ≤ maxConcurrentJobs →
      (getRunningJobCount
        (schedulerTick store maxConcurrentJobs now).2 : Int) ≤
        maxConcurrentJobs) := by
  have hspec := tickSelect_spec store maxConcurrentJobs hnd
  have hmark := runningCount_tickMark (tickSelect store maxConcurrentJobs)
    store now hnd hspec.1 hspec.2.1
  have hempty : maxConcurrentJobs - (getRunningJobCount store : Int) ≤ 0 →
      tickSelect store maxConcurrentJobs = [] := by
    intro h
    unfold tickSelect
    simp [h]
  have hlen : ((tickSelect store maxConcurrentJobs).length : Int) ≤
      max (maxConcurrentJobs - (getRunningJobCount store : Int)) 0 := by
    have := hspec.2.2
    omega
  refine ⟨hempty, hlen, hmark, ?_⟩
  intro hcap
  have hst : (schedulerTick store maxConcurrentJobs now).2 =
      tickMark store (tickSelect store maxConcurrentJobs) now := rfl
  rw [hst, hmark]
  omega

/-- C1 witness: five queued jobs a..e, ceiling 2, nothing running: the
tick selects at most 2 and ends within the ceiling. -/
theorem schedulerTick_concurrency_cap_witness :
    (tickSelect [newJobRecord "a" 0 JsonVal.nullV,
        newJobRecord "b" 0 JsonVal.nullV, newJobRecord "c" 0 JsonVal.nullV,
        newJobRecord "d" 0 JsonVal.nullV, newJobRecord "e" 0 JsonVal.nullV]
        2).length ≤ 2 ∧
    (getRunningJobCount (schedulerTick [newJobRecord "a" 0 JsonVal.nullV,
        newJobRecord "b" 0 JsonVal.nullV, newJobRecord "c" 0 JsonVal.nullV,
        newJobRecord "d" 0 JsonVal.nullV, newJobRecord "e" 0 JsonVal.nullV]
        2 7).2 : Int) ≤ 2 := by
  have h := schedulerTick_concurrency_cap [newJobRecord "a" 0 JsonVal.nullV,
    newJobRecord "b" 0 JsonVal.nullV, newJobRecord "c" 0 JsonVal.nullV,
    newJobRecord "d" 0 JsonVal.nullV, newJobRecord "e" 0 JsonVal.nullV]
    2 7 (by decide)
  refine ⟨?_, h.2.2.2 (by decide)⟩
  have := h.2.1
  have hrun : getRunningJobCount [newJobRecord "a" 0 JsonVal.nullV,
      newJobRecord "b" 0 JsonVal.nullV, newJobRecord "c" 0 JsonVal.nullV,
      newJobRecord "d" 0 JsonVal.nullV,
      newJobRecord "e" 0 JsonVal.nullV] = 0 := by decide
  rw [hrun] at this
  omega

theorem getJob_mem (store : List JobRec) (jobId : String) (r : JobRec)
    (h : getJob store jobId = some r) : r ∈ store := by
  induction store with
  | nil => simp [getJob] at h
  | cons x t ih =>
    by_cases hx : x.job_id = jobId
    · simp [getJob, hx] at h
      simp [h]
    · simp only [getJob, hx] at h
      simp only [show (x.job_id == jobId) = false by simp [hx],
        Bool.false_eq_true, if_false] at h
      simp [ih h]

theorem getJob_append_right (store : List JobRec) (x : JobRec)
    (jobId : String) (r : JobRec) (h : getJob store jobId = some r) :
    getJob (store ++ [x]) jobId = some r := by
  induction store with
  | nil => simp [getJob] at h
  | cons y t ih =>
    by_cases hy : y.job_id = jobId <;>
      simp [getJob, hy] at h ⊢ <;> simp_all [ih]

theorem getJob_of_mem_nodup (store : List JobRec) (s : JobRec)
    (hnd : (store.map (fun x => x.job_id)).Nodup) (hmem : s ∈ store) :
    getJob store s.job_id = some s := by
  induction store with
  | nil => cases hmem
  | cons x t ih =>
    have hnd' : x.job_id ∉ t.map (fun x => x.job_id) ∧
        (t.map (fun x => x.job_id)).Nodup := by
      simpa [List.nodup_cons] using hnd
    rcases List.mem_cons.mp hmem with h1 | h1
    · subst h1
      simp [getJob]
    · by_cases hx : x.job_id = s.job_id
      · exact absurd (hx ▸ List.mem_map_of_mem (fun x => x.job_id) h1)
          hnd'.1
      · simp [getJob, hx, ih hnd'.2 h1]

theorem tickMark_ids (sel : List JobRec) (store : List JobRec)
    (now : Nat) :
    (tickMark store sel now).map (fun x => x.job_id) =
      store.map (fun x => x.job_id) := by
  induction sel generalizing store with
  | nil => rfl
  | cons s ss ih =>
    unfold tickMark at ih ⊢
    rw [List.foldl_cons, ih, updateJobStore_ids]

theorem getJob_tickMark_ne (sel : List JobRec) (store : List JobRec)
    (now : Nat) (jobId : String)
    (h : ∀ s ∈ sel, s.job_id ≠ jobId) :
    getJob (tickMark store sel now) jobId = getJob store jobId := by
  induction sel generalizing store with
  | nil => rfl
  | cons s ss ih =>
    unfold tickMark at ih ⊢
    rw [List.foldl_cons]
    rw [ih _ (fun y hy => h y (by simp [hy]))]
    exact getJob_updateJobStore_ne store s.job_id jobId _
      (fun he => h s (by simp) he.symm)

theorem getJob_tickMark_mem (sel : List JobRec) (store : List JobRec)
    (now : Nat) (hnd : (store.map (fun x => x.job_id)).Nodup)
    (hselnd : (sel.map (fun x => x.job_id)).Nodup)
    (hmem : ∀ s ∈ sel, s ∈ store) :
    ∀ s ∈ sel, getJob (tickMark store sel now) s.job_id =
      some (applyUpdate s (runningUpdate now)) := by
  induction sel generalizing store with
  | nil => intro s hs; cases hs
  | cons x ss ih =>
    have hselnd' : x.job_id ∉ ss.map (fun y => y.job_id) ∧
        (ss.map (fun y => y.job_id)).Nodup := by
      simpa [List.nodup_cons] using hselnd
    intro s hs
    have hstep : tickMark store (x :: ss) now =
        tickMark (updateJobStore store x.job_id (runningUpdate now))
          ss now := by
      unfold tickMark
      rw [List.foldl_cons]
    rcases List.mem_cons.mp hs with h1 | h1
    · subst h1
      rw [hstep, getJob_tickMark_ne ss _ now s.job_id
        (fun y hy he => hselnd'.1 (he ▸
          List.mem_map_of_mem (fun z => z.job_id) hy))]
      rw [getJob_updateJobStore,
        getJob_of_mem_nodup store s hnd (hmem s (by simp))]
      rfl
    · have hnd1 : ((updateJobStore store x.job_id
          (runningUpdate now)).map (fun y => y.job_id)).Nodup := by
        rw [updateJobStore_ids]; exact hnd
      have hmem1 : ∀ y ∈ ss, y ∈ updateJobStore store x.job_id
          (runningUpdate now) := by
        intro y hy
        refine mem_updateJobStore_ne store x.job_id _ y
          (hmem y (by simp [hy])) (fun he => ?_)
        exact hselnd'.1 (he ▸ List.mem_map_of_mem (fun z => z.job_id) hy)
      rw [hstep]
      exact ih _ hnd1 hselnd'.2 hmem1 s h1

theorem postJobs_store_cases (store : List JobRec) (config : Config)
    (body : JsonVal) (now : Nat) :
    (postJobs store config body now).2 = store ∨
    ((postJobs store config body now).2 =
        store ++ [newJobRecord (jobIdOf body) now body] ∧
      store.any (fun r => r.job_id == jobIdOf body) = false) := by
  unfold postJobs
  cases hv : validateJobRequest body config with
  | some code => exact Or.inl rfl
  | none =>
    by_cases hb : store.any (fun r => r.job_id == jobIdOf body)
    · left
      simp [createJob, hb]
    · right
      have hb' : store.any (fun r => r.job_id == jobIdOf body) = false :=
        by simpa using hb
      simp [createJob, hb']

theorem deleteJob_store_cases (store : List JobRec) (jobId : String)
    (now : Nat) :
    (deleteJob store jobId now).2 = store ∨
    (∃ record, getJob store jobId = some record ∧
      record.state = "queued" ∧
      (deleteJob store jobId now).2 =
        updateJobStore store jobId (cancelUpdate now)) := by
  unfold deleteJob
  cases hg : getJob store jobId with
  | none => exact Or.inl rfl
  | some record =>
    by_cases hq : record.state = "queued"
    · right
      exact ⟨record, rfl, hq, by simp [hq]⟩
    · left
      simp [hq]

theorem stepSys_inv (config : Config) (s : SysState) (a : SysAction)
    (h : SysInv s) : SysInv (stepSys config s a) := by
  cases a with
  | submit body now =>
    rcases postJobs_store_cases s.store config body now with hc | ⟨hc, hb⟩
    · constructor
      · simpa [stepSys, hc] using h.1
      · intro fid hf
        simpa [stepSys, hc] using h.2 fid hf
    · constructor
      · have hnotmem : jobIdOf body ∉ s.store.map (fun r => r.job_id) := by
          intro hm
          rcases List.mem_map.mp hm with ⟨y, hy, hyid⟩
          have : s.store.any (fun r => r.job_id == jobIdOf body) = true :=
            List.any_eq_true.mpr ⟨y, hy, by simp [hyid]⟩
          simp [this] at hb
        simp only [stepSys, hc, List.map_append, List.map_cons,
          List.map_nil]
        refine List.Nodup.append h.1 (by simp) ?_
        intro x hx hy
        simp only [List.mem_singleton, newJobRecord] at hy
        subst hy
        exact hnotmem hx
      · intro fid hf
        obtain ⟨r, hr1, hr2⟩ := h.2 fid (by simpa [stepSys] using hf)
        refine ⟨r, ?_, hr2⟩
        simp only [stepSys, hc]
        exact getJob_append_right _ _ _ _ hr1
  | tick now =>
    have hspec := tickSelect_spec s.store config.maxConcurrentJobs h.1
    constructor
    · simpa [stepSys, tickMark_ids] using h.1
    · intro fid hf
      simp only [stepSys, List.mem_append] at hf
      rcases hf with hf | hf
      · obtain ⟨r, hr1, hr2⟩ := h.2 fid hf
        have hne : ∀ s0 ∈ tickSelect s.store config.maxConcurrentJobs,
            s0.job_id ≠ fid := by
          intro s0 hs0 he
          have hq := (hspec.2.1 s0 hs0).2
          have hg := getJob_of_mem_nodup s.store s0 h.1
            (hspec.2.1 s0 hs0).1
          rw [he, hr1] at hg
          have : r = s0 := Option.some.inj hg
          rw [this, hq] at hr2
          simp at hr2
        refine ⟨r, ?_, hr2⟩
        simpa [stepSys, getJob_tickMark_ne _ _ _ _ hne] using hr1
      · rcases List.mem_map.mp hf with ⟨s0, hs0, hid⟩
        refine ⟨applyUpdate s0 (runningUpdate now), ?_, by
          simp [applyUpdate, runningUpdate]⟩
        have := getJob_tickMark_mem
          (tickSelect s.store config.maxConcurrentJobs) s.store now h.1
          hspec.1 (fun y hy => (hspec.2.1 y hy).1) s0 hs0
        simpa [stepSys, hid] using this
  | complete jobId res fin =>
    have hsplit : stepSys config s (SysAction.complete jobId res fin) =
        if s.inFlight.contains jobId then
          { store := updateJobStore s.store jobId (finishUpdate fin res)
            inFlight := s.inFlight.filter (fun i => i != jobId) }
        else s := rfl
    by_cases hc : s.inFlight.contains jobId = true
    · rw [hsplit, if_pos hc]
      constructor
      · simpa [updateJobStore_ids] using h.1
      · intro fid hf
        simp only [List.mem_filter] at hf
        have hne : fid ≠ jobId := by simpa using hf.2
        obtain ⟨r, hr1, hr2⟩ := h.2 fid hf.1
        exact ⟨r, by
          rw [getJob_updateJobStore_ne _ _ _ _ hne]; exact hr1, hr2⟩
    · rw [hsplit, if_neg hc]
      exact h
  | cancel jobId now =>
    rcases deleteJob_store_cases s.store jobId now with hc |
      ⟨record, hrec, hq, hc⟩
    · constructor
      · simpa [stepSys, hc] using h.1
      · intro fid hf
        simpa [stepSys, hc] using h.2 fid hf
    · constructor
      · simpa [stepSys, hc, updateJobStore_ids] using h.1
      · intro fid hf
        obtain ⟨r, hr1, hr2⟩ := h.2 fid hf
        have hne : fid ≠ jobId := by
          intro he
          rw [he, hrec] at hr1
          have : record = r := Option.some.inj hr1
          rw [← this, hq] at hr2
          simp at hr2
        refine ⟨r, ?_, hr2⟩
        simp only [stepSys, hc]
        rw [getJob_updateJobStore_ne _ _ _ _ hne]
        exact hr1

theorem runSys_inv (config : Config) (acts : List SysAction) :
    SysInv (runSys config acts) := by
  have hgen : ∀ s, SysInv s → SysInv (acts.foldl (stepSys config) s) := by
    induction acts with
    | nil => exact fun s hs => hs
    | cons a rest ih =>
      intro s hs
      exact ih _ (stepSys_inv config s a hs)
  refine hgen initSys ⟨by simp [initSys], ?_⟩
  intro jobId hj
  simp [initSys] at hj

theorem stepSys_terminal_stable (config : Config) (s : SysState)
    (a : SysAction) (jid : String) (r : JobRec) (hinv : SysInv s)
    (hget : getJob s.store jid = some r)
    (hterm : r.state = "finished" ∨ r.state = "failed") :
    getJob (stepSys config s a).store jid = some r := by
  have hterm' : r.state ≠ "queued" ∧ r.state ≠ "running" := by
    rcases hterm with h | h <;> rw [h] <;> exact ⟨by decide, by decide⟩
  cases a with
  | submit body now =>
    rcases postJobs_store_cases s.store config body now with hc | ⟨hc, hb⟩
    · simpa [stepSys, hc] using hget
    · simp only [stepSys, hc]
      exact getJob_append_right _ _ _ _ hget
  | tick now =>
    have hspec := tickSelect_spec s.store config.maxConcurrentJobs hinv.1
    have hne : ∀ s0 ∈ tickSelect s.store config.maxConcurrentJobs,
        s0.job_id ≠ jid := by
      intro s0 hs0 he
      have hq := (hspec.2.1 s0 hs0).2
      have hg := getJob_of_mem_nodup s.store s0 hinv.1
        (hspec.2.1 s0 hs0).1
      rw [he, hget] at hg
      have : r = s0 := Option.some.inj hg
      exact hterm'.1 (this ▸ hq)
    simpa [stepSys, getJob_tickMark_ne _ _ _ _ hne] using hget
  | complete jobId res fin =>
    have hsplit : stepSys config s (SysAction.complete jobId res fin) =
        if s.inFlight.contains jobId then
          { store := updateJobStore s.store jobId (finishUpdate fin res)
            inFlight := s.inFlight.filter (fun i => i != jobId) }
        else s := rfl
    by_cases hc : s.inFlight.contains jobId = true
    · rw [hsplit, if_pos hc]
      obtain ⟨r2, hr1, hr2⟩ := hinv.2 jobId (by simpa using hc)
      have hne : jid ≠ jobId := by
        intro he
        rw [← he, hget] at hr1
        exact hterm'.2 ((Option.some.inj hr1) ▸ hr2)
      rw [getJob_updateJobStore_ne _ _ _ _ hne]
      exact hget
    · rw [hsplit, if_neg hc]
      exact hget
  | cancel jobId now =>
    rcases deleteJob_store_cases s.store jobId now with hc |
      ⟨record, hrec, hq, hc⟩
    · simpa [stepSys, hc] using hget
    · have hne : jid ≠ jobId := by
        intro he
        rw [← he, hget] at hrec
        exact hterm'.1 ((Option.some.inj hrec) ▸ hq)
      simp only [stepSys, hc]
      rw [getJob_updateJobStore_ne _ _ _ _ hne]
      exact hget

/-- C7: in every worker state reachable by any interleaving of
submissions, scheduler ticks, execution completions, and cancellation
requests, a record in a terminal state (`finished` or `failed`) is never
modified by any further step: no writer overwrites a terminal state. -/
theorem terminal_states_stable (config : Config) (acts : List SysAction)
    (a : SysAction) (jid : String) (r : JobRec)
    (hget : getJob (runSys config acts).store jid = some r)
    (hterm : r.state = "finished" ∨ r.state = "failed") :
    getJob (stepSys config (runSys config acts) a).store jid = some r :=
  stepSys_terminal_stable config (runSys config acts) a jid r
    (runSys_inv config acts) hget hterm

/-- C7 witness: submit j1, dispatch it, complete it with exit 0 (reaching
the terminal state `finished`), then a cancellation request for j1 leaves
the finished record untouched. -/
theorem terminal_states_stable_witness :
    getJob (stepSys ⟨2, []⟩ (runSys ⟨2, []⟩
      [SysAction.submit (JsonVal.objV
          [("protocol_version", JsonVal.numV 1),
            ("job_id", JsonVal.strV "j1"),
            ("runtime", JsonVal.objV [("mode", JsonVal.strV "image"),
              ("image", JsonVal.strV "alpine:3")])]) 0,
        SysAction.tick 1,
        SysAction.complete "j1" ⟨some 0, "", "", none⟩ 2])
      (SysAction.cancel "j1" 3)).store "j1" =
    some { job_id := "j1", state := "finished", created_at := 0,
           started_at := some 1, finished_at := some 2,
           exit_code := some 0, stdout := "", stderr := "",
           error := none,
           job := JsonVal.objV [("protocol_version", JsonVal.numV 1),
             ("job_id", JsonVal.strV "j1"),
             ("runtime", JsonVal.objV [("mode", JsonVal.strV "image"),
               ("image", JsonVal.strV "alpine:3")])] } :=
  terminal_states_stable ⟨2, []⟩
    [SysAction.submit (JsonVal.objV
        [("protocol_version", JsonVal.numV 1),
          ("job_id", JsonVal.strV "j1"),
          ("runtime", JsonVal.objV [("mode", JsonVal.strV "image"),
            ("image", JsonVal.strV "alpine:3")])]) 0,
      SysAction.tick 1,
      SysAction.complete "j1" ⟨some 0, "", "", none⟩ 2]
    (SysAction.cancel "j1" 3) "j1"
    { job_id := "j1", state := "finished", created_at := 0,
      started_at := some 1, finished_at := some 2, exit_code := some 0,
      stdout := "", stderr := "", error := none,
      job := JsonVal.objV [("protocol_version", JsonVal.numV 1),
        ("job_id", JsonVal.strV "j1"),
        ("runtime", JsonVal.objV [("mode", JsonVal.strV "image"),
          ("image", JsonVal.strV "alpine:3")])] }
    rfl (Or.inl rfl)
